import Mathlib

/-!
Shallow embedding of the DataEndpoints broker gateway
(`src/brokers/upstox/broker.py`, `src/brokers/factory.py`,
`src/services/token_rotation_service.py`) and proofs about its
instrument resolution, request chunking, quote conversion,
historical-candle assembly, broker factory and token-lifecycle loop.

Conventions of the embedding:
- Python strings that are parsed with `int(...)` are modelled by `pyInt`,
  a model of the CPython decimal `int(str)` cast restricted to ASCII input
  (optional surrounding whitespace, optional sign, digits with single
  interior underscores).
- The polars master DataFrame is modelled as a list of `InstrumentRow`
  (one row per instrument); `DataFrame.filter` is `List.filter` and
  `df[col][0]` is `List.head?` (an empty frame makes the subscript raise,
  which the embedding surfaces as an `Except.error`).
- Network responses are supplied as explicit response values (one per
  chunk request), so that the pure request/assembly logic can be run on
  any response pattern. Timestamps and dates are day/tick numbers (`Nat`);
  price payloads are opaque `Int` fields.
- `asyncio.sleep` rate-limiting delays are not part of the modelled state;
  no claim below depends on them. The wall clock enters only through the
  current calendar day, which `historical_data` reads via
  `datetime.now().strftime("%Y-%m-%d")`; the embedding passes that day in
  as an explicit `today` argument.
-/

namespace DataEndpoints

/-- Constructor view of `Except` as a sum, for deciding equality. -/
def exceptToSum : Except ε α → ε ⊕ α
  | .error e => .inl e
  | .ok a => .inr a

instance {ε α : Type} [DecidableEq ε] [DecidableEq α] : DecidableEq (Except ε α) :=
  fun x y =>
    decidable_of_iff (exceptToSum x = exceptToSum y)
      (by cases x <;> cases y <;> simp [exceptToSum])

/-! ## Instrument catalog (`master_df` rows, from `_get_upstox_master_data`) -/

/-- One row of the Upstox master instrument file as the broker uses it:
`exchange` holds the combined segment value (e.g. `"NSE_EQ"`) that the code
compares against `f"{exchange}_{instrument_type}"`. -/
structure InstrumentRow where
  instrument_key : String
  exchange_token : Int
  exchange : String
  tradingsymbol : String
deriving Repr, DecidableEq

abbrev Catalog := List InstrumentRow

/-! ## Python `int(...)` cast model -/

def isPySpace (c : Char) : Bool :=
  c == ' ' || c == '\t' || c == '\n' || c == '\r' || c == '\x0b' || c == '\x0c'

def stripChars (cs : List Char) : List Char :=
  ((cs.dropWhile isPySpace).reverse.dropWhile isPySpace).reverse

def digitVal (c : Char) : Nat := c.toNat - 48

/-- Digits after the first one: a digit, or an underscore that must be
followed by a digit (CPython allows single interior underscores). -/
def pyIntDigits : Nat → List Char → Option Nat
  | acc, [] => some acc
  | acc, '_' :: c :: rest =>
      if c.isDigit then pyIntDigits (acc * 10 + digitVal c) rest else none
  | acc, c :: rest =>
      if c.isDigit then pyIntDigits (acc * 10 + digitVal c) rest else none

def pyIntNat : List Char → Option Nat
  | [] => none
  | c :: rest => if c.isDigit then pyIntDigits (digitVal c) rest else none

/-- Model of Python `int(s)` for a decimal string: strip whitespace, optional
sign, then digits with single interior underscores; `none` models the
`ValueError` the cast raises on anything else. -/
def pyInt (s : String) : Option Int :=
  match stripChars s.toList with
  | '+' :: rest => (pyIntNat rest).map (fun n => (n : Int))
  | '-' :: rest => (pyIntNat rest).map (fun n => -(n : Int))
  | cs => (pyIntNat cs).map (fun n => (n : Int))

/-! ## Instrument resolution (the shared lookup loop of the quote and
historical operations) -/

/-- Errors the broker operations raise, by source site. -/
inductive BrokerErr where
  /-- `int(exchange_token)` raised `ValueError`. -/
  | castError (tok : String)
  /-- "exchange_token: ... not found in the upstox master file." -/
  | unknownInstrument (tok : String)
  /-- Invalid OHLC interval (`ohlc_quote` validation). -/
  | invalidInterval (interval : String)
  /-- Non-200 HTTP status on a quote chunk. -/
  | httpError (status : Nat)
  /-- 200 response whose `status` field is not `"success"`. -/
  | unsuccessful
  /-- 200 success response without a `data` key. -/
  | missingData
  /-- HTTP 429 on an `ohlc_quote` chunk (waited once, then raised). -/
  | rateLimited
  /-- `temp_df[...][0]` subscript on an empty filter result in
  `convert_quote` (the instrument key is absent from the catalog). -/
  | indexOutOfBounds (key : String)
  /-- `IndexError` from `exchange.split("_")[1]` in `convert_quote` when the
  stored exchange value has no underscore. -/
  | splitIndexError (exch : String)
  /-- `TypeError` from calling a method with keyword arguments its signature
  rejects (the `full_market_quote(exchange_token=..., exchange=...,
  instrument_type=...)` call inside `_convert_to_polars_df`, whose
  `UpstoxBroker` implementation takes a single `request_data` parameter). -/
  | typeError (fn : String)
deriving Repr, DecidableEq

/-- Splitting a character list on a separator, modelling the Python
`str.split(sep)` used on the combined exchange value. -/
def splitChar (sep : Char) : List Char → List (List Char)
  | [] => [[]]
  | c :: rest =>
    let r := splitChar sep rest
    if c == sep then [] :: r
    else
      match r with
      | [] => [[c]]
      | g :: gs => (c :: g) :: gs

/-- Model of `s.split("_")[1]`: the second field, `none` when the subscript
would raise `IndexError`. -/
def pySplitIdx1 (s : String) : Option String :=
  match splitChar '_' s.toList with
  | _ :: g :: _ => some (String.mk g)
  | _ => none

/-- Model of the master filter `master_df.filter` on the token and combined exchange columns. -/
def masterFilter (cat : Catalog) (tok : Int) (exch : String) : List InstrumentRow :=
  cat.filter (fun r => r.exchange_token == tok && r.exchange == exch)

/-- Forward resolution used by all four operations: filter the master rows by
the cast token and combined exchange string, take the `instrument_key` of row 0. -/
def resolve (cat : Catalog) (exchange instrument_type : String) (tok : Int) :
    Option String :=
  ((masterFilter cat tok (exchange ++ "_" ++ instrument_type)).head?).map
    (fun r => r.instrument_key)

/-- A caller-facing instrument reference (one entry of `request_data`). -/
structure QuoteRef where
  exchange_token : String
  exchange : String
  instrument_type : String
deriving Repr, DecidableEq

/-- One iteration of the resolution loop: `int(...)` cast, then the master
lookup, then the subscripted `instrument_key` of row 0. -/
def resolveRef (cat : Catalog) (ref : QuoteRef) : Except BrokerErr String :=
  match pyInt ref.exchange_token with
  | none => .error (.castError ref.exchange_token)
  | some tok =>
    match resolve cat ref.exchange ref.instrument_type tok with
    | none => .error (.unknownInstrument ref.exchange_token)
    | some key => .ok key

/-- The resolution loop over `request_data` (fail-fast: the first bad ref
raises before any network call is made). -/
def resolveRefs (cat : Catalog) : List QuoteRef → Except BrokerErr (List String)
  | [] => .ok []
  | ref :: rest =>
    match resolveRef cat ref with
    | .error e => .error e
    | .ok key =>
      match resolveRefs cat rest with
      | .error e => .error e
      | .ok keys => .ok (key :: keys)

/-! ## Batch chunking (`[lst[i:i+CHUNK_SIZE] for i in range(0, len(lst), CHUNK_SIZE)]`) -/

/-- Slicing loop with explicit fuel; each step takes one `CHUNK_SIZE`-slice and
drops it, so `l.length` fuel always suffices (each iteration consumes at
least one element when `B > 0`). -/
def chunksOfAux (B : Nat) : Nat → List α → List (List α)
  | _, [] => []
  | 0, _ :: _ => []
  | fuel + 1, x :: xs => ((x :: xs).take B) :: chunksOfAux B fuel ((x :: xs).drop B)

/-- The list chunking of the broker, `CHUNK_SIZE = B`. -/
def chunksOf (B : Nat) (l : List α) : List (List α) := chunksOfAux B l.length l

def LTP_CHUNK_SIZE : Nat := 750
def OHLC_CHUNK_SIZE : Nat := 450
def FULL_QUOTE_CHUNK_SIZE : Nat := 450

/-! ## Date-range chunking of `historical_data` (lines 437-449) -/

/-- The `while chunk_start < to_dt` loop, dates as day numbers; fuel bounds the
iteration count (each iteration advances `chunk_start` by at least one day,
so `toD + 1 - fromD` always suffices). -/
def dateChunksAux : Nat → Nat → Nat → List (Nat × Nat)
  | 0, _, _ => []
  | fuel + 1, start, toD =>
    if start < toD then
      (start, min (start + 999) toD) :: dateChunksAux fuel (min (start + 999) toD + 1) toD
    else []

def dateChunks (fromD toD : Nat) : List (Nat × Nat) :=
  dateChunksAux (toD + 1 - fromD) fromD toD

/-! ## Quote conversion (`convert_quote`, lines 362-397) -/

/-- One value of the provider quote `data` dict: the `instrument_token`
field (possibly `None`) and an opaque price payload. -/
structure QuoteEntryVal where
  instrument_token : Option String
  payload : Int
deriving Repr, DecidableEq

/-- A converted quote entry: the fields `convert_quote` writes back into the
provider value before keying it by `exchange_token`. -/
structure ConvertedQuote where
  trading_symbol : String
  instrument_type : String
  payload : Int
deriving Repr, DecidableEq

/-- Model of the master filter on the `instrument_key` column. -/
def reverseRows (cat : Catalog) (key : String) : List InstrumentRow :=
  cat.filter (fun r => r.instrument_key == key)

/-- Reverse resolution as `convert_quote` performs it: row 0 of the
instrument-key filter, giving the `(exchange_token, trading_symbol)` pair. -/
def reverseResolve (cat : Catalog) (key : String) : Option (Int × String) :=
  ((reverseRows cat key).head?).map (fun r => (r.exchange_token, r.tradingsymbol))

/-- Python dict assignment `d[k] = v` on an ordered map: overwrite in place,
else append. -/
def dictUpd (k : Int) (v : ConvertedQuote) :
    List (Int × ConvertedQuote) → List (Int × ConvertedQuote)
  | [] => [(k, v)]
  | (a, b) :: rest => if a == k then (k, v) :: rest else (a, b) :: dictUpd k v rest

/-- The loop body of `convert_quote`: for each response entry, skip it when
`instrument_token` is `None`; otherwise filter the master rows by the key and
subscript row 0 (`temp_df["tradingsymbol"][0]`) — on an empty filter result
that subscript raises, which the surrounding `except` re-raises, so the whole
conversion aborts (the `if temp_df.is_empty(): continue` two lines below is
unreachable). `instrument_type` is `temp_df["exchange"][0].split("_")[1]`. -/
def convertQuoteLoop (cat : Catalog) (acc : List (Int × ConvertedQuote)) :
    List (String × QuoteEntryVal) → Except BrokerErr (List (Int × ConvertedQuote))
  | [] => .ok acc
  | (_, v) :: rest =>
    match v.instrument_token with
    | none => convertQuoteLoop cat acc rest
    | some key =>
      match (reverseRows cat key).head? with
      | none => .error (.indexOutOfBounds key)
      | some row =>
        match pySplitIdx1 row.exchange with
        | none => .error (.splitIndexError row.exchange)
        | some ity =>
          convertQuoteLoop cat
            (dictUpd row.exchange_token
              { trading_symbol := row.tradingsymbol
                instrument_type := ity
                payload := v.payload } acc)
            rest

def convert_quote (cat : Catalog) (response_data : List (String × QuoteEntryVal)) :
    Except BrokerErr (List (Int × ConvertedQuote)) :=
  convertQuoteLoop cat [] response_data

/-! ## Quote operations (`ltp_quote`, `ohlc_quote`, `full_market_quote`) -/

/-- A provider response to one quote chunk request, as the code case-splits
on it: 200 + `status == "success"` + `data` present carries the entries;
the other shapes are the error branches. -/
inductive QuoteChunkResp where
  | ok (entries : List (String × QuoteEntryVal))
  | okNoData
  | okUnsuccessful
  | rateLimit
  | httpFail (status : Nat)
deriving Repr, DecidableEq

/-- The chunk loop shared by `ltp_quote` and `full_market_quote`: each chunk has its
response converted and merged into `combined_response` via `dict.update`;
any non-success shape raises and aborts the whole call. A 429 falls into the
generic non-200 branch for these two operations. -/
def quoteChunkLoop (cat : Catalog) (acc : List (Int × ConvertedQuote)) :
    List (List String × QuoteChunkResp) → Except BrokerErr (List (Int × ConvertedQuote))
  | [] => .ok acc
  | (_, resp) :: rest =>
    match resp with
    | .ok entries =>
      match convert_quote cat entries with
      | .error e => .error e
      | .ok chunkData =>
        quoteChunkLoop cat (chunkData.foldl (fun m p => dictUpd p.1 p.2 m) acc) rest
    | .okNoData => .error .missingData
    | .okUnsuccessful => .error .unsuccessful
    | .rateLimit => .error (.httpError 429)
    | .httpFail s => .error (.httpError s)

/-- The `ohlc_quote` chunk loop differs only in giving HTTP 429 its own
wait-then-raise branch (still an abort, never a retry). -/
def ohlcChunkLoop (cat : Catalog) (acc : List (Int × ConvertedQuote)) :
    List (List String × QuoteChunkResp) → Except BrokerErr (List (Int × ConvertedQuote))
  | [] => .ok acc
  | (_, resp) :: rest =>
    match resp with
    | .ok entries =>
      match convert_quote cat entries with
      | .error e => .error e
      | .ok chunkData =>
        ohlcChunkLoop cat (chunkData.foldl (fun m p => dictUpd p.1 p.2 m) acc) rest
    | .okNoData => .error .missingData
    | .okUnsuccessful => .error .unsuccessful
    | .rateLimit => .error .rateLimited
    | .httpFail s => .error (.httpError s)

/-- Model of `ltp_quote` (lines 73-155): resolve every ref, chunk by 750, run the
chunk requests sequentially. `resps` lists the provider responses in chunk
order. -/
def ltp_quote (cat : Catalog) (request_data : List QuoteRef)
    (resps : List QuoteChunkResp) : Except BrokerErr (List (Int × ConvertedQuote)) :=
  match resolveRefs cat request_data with
  | .error e => .error e
  | .ok keys => quoteChunkLoop cat [] ((chunksOf LTP_CHUNK_SIZE keys).zip resps)

def VALID_OHLC_INTERVALS : List String := ["1d", "I1", "I30"]

/-- Model of `ohlc_quote` (lines 157-269): interval validation, then resolution,
chunking by 450, sequential chunk requests. -/
def ohlc_quote (cat : Catalog) (request_data : List QuoteRef) (interval : String)
    (resps : List QuoteChunkResp) : Except BrokerErr (List (Int × ConvertedQuote)) :=
  if interval ∈ VALID_OHLC_INTERVALS then
    match resolveRefs cat request_data with
    | .error e => .error e
    | .ok keys => ohlcChunkLoop cat [] ((chunksOf OHLC_CHUNK_SIZE keys).zip resps)
  else .error (.invalidInterval interval)

/-- Model of `full_market_quote` (lines 271-360): resolution, chunking by 450,
sequential chunk requests. -/
def full_market_quote (cat : Catalog) (request_data : List QuoteRef)
    (resps : List QuoteChunkResp) : Except BrokerErr (List (Int × ConvertedQuote)) :=
  match resolveRefs cat request_data with
  | .error e => .error e
  | .ok keys => quoteChunkLoop cat [] ((chunksOf FULL_QUOTE_CHUNK_SIZE keys).zip resps)

/-! ## Historical candles (`historical_data`, lines 399-522) -/

/-- One candle row; the `"%Y-%m-%d %H:%M:%S"` datetime string is split into
its calendar day (`day`, the `"%Y-%m-%d"` part, in the same day numbering as
the date-range arguments) and the intra-day time (`tick`); the OHLCV/oi
payload is opaque. -/
structure Candle where
  day : Nat
  tick : Nat
  openP : Int
  high : Int
  low : Int
  close : Int
  volume : Int
  oi : Int
deriving Repr, DecidableEq

/-- Datetime order: lexicographic on (day, intra-day time), as the string
order on `"%Y-%m-%d %H:%M:%S"` values is. -/
def dtLe (c d : Candle) : Bool :=
  c.day < d.day || (c.day == d.day && c.tick ≤ d.tick)

/-- Stable insertion into a datetime-ascending list (models the polars
ascending `sort` on the datetime column). -/
def insertByDt (c : Candle) : List Candle → List Candle
  | [] => [c]
  | d :: rest => if dtLe c d then c :: d :: rest else d :: insertByDt c rest

def sortByDt (l : List Candle) : List Candle := l.foldr insertByDt []

/-- Model of the `has_todays_data` check (lines 577-579): does some candle
datetime string contain the date of `today` (for the fixed datetime format,
exactly when the day field equals `today`)? -/
def hasDay (today : Nat) (cs : List Candle) : Bool :=
  cs.any (fun c => c.day == today)

/-- Model of `_convert_to_polars_df` (lines 524-637) for one chunk: an empty
candle list becomes an empty frame; otherwise, when the chunk end date
equals the current day and no candle bears that day, line 582 calls
`self.full_market_quote(exchange_token=..., exchange=..., instrument_type=...)`
— keyword arguments the `UpstoxBroker.full_market_quote(request_data)`
signature rejects — so the branch raises `TypeError` (the synthetic-candle
append below it is unreachable); in every other case the chunk frame is
returned sorted by datetime. -/
def convertChunkDf (today chunk_to : Nat) (cs : List Candle) :
    Except BrokerErr (List Candle) :=
  if cs.isEmpty then .ok []
  else if chunk_to == today && !hasDay today cs then
    .error (.typeError "full_market_quote")
  else .ok (sortByDt cs)

/-- A provider response to one historical chunk request, as the code
case-splits on it. -/
inductive HistChunkResp where
  /-- 200 with `status == "success"` and a `data` key; `candles` may be empty. -/
  | ok (candles : List Candle)
  /-- 200 success without a `data` key: warning, chunk skipped. -/
  | okNoData
  /-- 200 with `status != "success"`: warning, chunk skipped. -/
  | okUnsuccessful
  /-- Non-200 HTTP status: warning, chunk skipped. -/
  | httpFail (status : Nat)
deriving Repr, DecidableEq

/-- The chunk loop of `historical_data` (lines 454-497): every non-success
response shape only logs a warning and the loop continues; the candles of a
successful chunk are converted by `_convert_to_polars_df` — which may raise
(`convertChunkDf`), aborting the whole call through the outer `except` — and
the non-empty converted frames are concatenated onto `combined_df` (`None`
until the first non-empty chunk). -/
def histChunkLoop (today : Nat) : List ((Nat × Nat) × HistChunkResp) →
    Option (List Candle) → Except BrokerErr (Option (List Candle))
  | [], acc => .ok acc
  | ((_, chunk_to), resp) :: rest, acc =>
    match resp with
    | .ok cs =>
      match convertChunkDf today chunk_to cs with
      | .error e => .error e
      | .ok chunk_df =>
        if chunk_df.isEmpty then histChunkLoop today rest acc
        else
          match acc with
          | none => histChunkLoop today rest (some chunk_df)
          | some a => histChunkLoop today rest (some (a ++ chunk_df))
    | .okNoData => histChunkLoop today rest acc
    | .okUnsuccessful => histChunkLoop today rest acc
    | .httpFail _ => histChunkLoop today rest acc

/-- The pre-network phase of `historical_data` (lines 427-435): the
`int(...)` cast and the master-file validation of the single instrument. -/
def histResolve (cat : Catalog) (exchange exchange_token instrument_type : String) :
    Except BrokerErr String :=
  match pyInt exchange_token with
  | none => .error (.castError exchange_token)
  | some tok =>
    match resolve cat exchange instrument_type tok with
    | none => .error (.unknownInstrument exchange_token)
    | some key => .ok key

/-- Model of `historical_data`: validate the instrument, chunk the date range, run the
chunk loop (which may raise from a chunk conversion), then sort the merged
frame ascending by datetime (an all-failed or all-empty run returns `[]`).
`resps` lists the provider responses in chunk order and `today` is the
current calendar day read from the wall clock. -/
def historical_data (cat : Catalog) (exchange exchange_token instrument_type : String)
    (fromD toD today : Nat) (resps : List HistChunkResp) : Except BrokerErr (List Candle) :=
  match histResolve cat exchange exchange_token instrument_type with
  | .error e => .error e
  | .ok _key =>
    match histChunkLoop today ((dateChunks fromD toD).zip resps) none with
    | .error e => .error e
    | .ok none => .ok []
    | .ok (some combined) =>
      if combined.isEmpty then .ok [] else .ok (sortByDt combined)

/-! ## Adapter state and `initialize` (`UpstoxBroker.initialize`, lines 49-68) -/

/-- The mutable adapter fields that `initialize` writes: `access_token`
(`None` until first set, per `BaseBroker.__init__`) and the master catalog
(`master_data`/`master_df`, collapsed to one component since both are
assigned from the same fetch). -/
structure AdapterState where
  access_token : Option String
  master_df : Option Catalog
deriving Repr, DecidableEq

/-- Model of `initialize` as a state transition: `self.access_token = await
self.fetch_access_token()` then `self.master_data = await
self._get_upstox_master_data()`, each of which may raise; the `except`
clause logs and re-raises without restoring anything. The outcomes of the
two awaited fetches are passed in explicitly. -/
def initializeRun (s : AdapterState) (tokRes : Except String String)
    (masterRes : Except String Catalog) : AdapterState × Except String Unit :=
  match tokRes with
  | .error e => (s, .error e)
  | .ok tok =>
    let s1 : AdapterState := { s with access_token := some tok }
    match masterRes with
    | .error e => (s1, .error e)
    | .ok m => ({ access_token := some tok, master_df := some m }, .ok ())

/-! ## Broker factory (`BrokerFactory`, `src/brokers/factory.py`) -/

/-- Registered broker constructors are opaque identifiers. -/
abbrev BrokerCls := Nat

/-- The `_broker_registry` dict as an ordered assoc list (python dict:
assignment overwrites in place, otherwise appends). -/
abbrev Registry := List (String × BrokerCls)

/-- Python dict assignment on the registry. -/
def regUpd (k : String) (v : BrokerCls) : Registry → Registry
  | [] => [(k, v)]
  | (a, b) :: rest => if a == k then (k, v) :: rest else (a, b) :: regUpd k v rest

/-- Python dict lookup on the registry (first — and, for a dict, only —
entry with the key). -/
def regGet : Registry → String → Option BrokerCls
  | [], _ => none
  | (a, b) :: rest, k => if a == k then some b else regGet rest k

/-- Model of the Python `str.lower()` call on broker-type identifiers
(per-character ASCII lowercasing). -/
def pyLower (s : String) : String := String.mk (s.toList.map Char.toLower)

/-- Model of `register_broker`: `cls._broker_registry[broker_type.lower()] = broker_class`. -/
def register_broker (reg : Registry) (broker_type : String) (cls : BrokerCls) : Registry :=
  regUpd (pyLower broker_type) cls reg

/-- Model of `create_broker`: lowercase the type, raise `ValueError` when it is not
registered, else construct via the registered class. -/
def create_broker (reg : Registry) (broker_type : String) : Except String BrokerCls :=
  match regGet reg (pyLower broker_type) with
  | none => .error ("Broker type is not registered")
  | some cls => .ok cls

/-! ## Token lifecycle loop (`TokenRotationService`) -/

/-- The observable behaviour of one broker during one health-check cycle:
the outcome of the `ltp_quote` probe, of `token_rotator.rotate()` (its
`statusCode` on success), of the post-rotation `initialize()`, plus a slot
for an unexpected exception raised by the per-broker body itself (the
`except` at lines 114-115 exists to catch those). -/
structure BrokerBeh where
  probe : Except String Unit
  rotateRes : Except String Nat
  reinit : Except String Unit
  bodyFault : Option String
deriving Repr, DecidableEq

/-- Model of `check_token_health` (lines 117-136): any exception from the probe call
is caught and mapped to `False`. -/
def check_token_health (probe : Except String Unit) : Bool :=
  match probe with
  | .ok _ => true
  | .error _ => false

/-- Model of `rotate_token` (lines 138-185): any exception is caught and mapped to
`False`; a rotation whose `statusCode` is 200 reinitializes the broker and
returns `True` only when that reinitialization also succeeds. -/
def rotate_token (beh : BrokerBeh) : Bool :=
  match beh.rotateRes with
  | .error _ => false
  | .ok statusCode =>
    if statusCode == 200 then
      match beh.reinit with
      | .ok _ => true
      | .error _ => false
    else false

/-- What one cycle records for one broker. -/
inductive CycleEvent where
  | healthy
  | rotated (succeeded : Bool)
  | errorLogged (msg : String)
deriving Repr, DecidableEq

/-- The body of the per-broker `try` block in `check_all_tokens`. -/
def checkBrokerBody (beh : BrokerBeh) : Except String CycleEvent :=
  match beh.bodyFault with
  | some msg => .error msg
  | none =>
    if check_token_health beh.probe then .ok .healthy
    else .ok (.rotated (rotate_token beh))

/-- Model of `check_all_tokens` (lines 97-115): iterate over all broker instances,
catching and logging any per-broker exception, then continue with the next
broker; the function itself never raises. -/
def check_all_tokens : List BrokerBeh → List CycleEvent
  | [] => []
  | beh :: rest =>
    (match checkBrokerBody beh with
     | .ok ev => ev
     | .error msg => .errorLogged msg) :: check_all_tokens rest

/-- Loop state of `start` (lines 89-95): how many cycles ran, whether the
loop has stopped, and the sleep chosen after the last cycle. -/
structure LoopState where
  cyclesDone : Nat
  stopped : Bool
  lastSleep : Nat
deriving Repr, DecidableEq

/-- One iteration of the `while True` body: run the cycle; on success sleep
`health_check_interval`, on any exception log and sleep 60; in either case
the loop keeps running. -/
def startStep (health_check_interval : Nat) (st : LoopState)
    (cycle : Except String (List CycleEvent)) : LoopState :=
  match cycle with
  | .ok _ => { cyclesDone := st.cyclesDone + 1, stopped := false,
               lastSleep := health_check_interval }
  | .error _ => { cyclesDone := st.cyclesDone + 1, stopped := false, lastSleep := 60 }

/-- The `while True` loop after `n` iterations, with the outcome of each
cycle supplied by `cycles`. -/
def runLoop (health_check_interval : Nat)
    (cycles : Nat → Except String (List CycleEvent)) : Nat → LoopState
  | 0 => { cyclesDone := 0, stopped := false, lastSleep := 0 }
  | n + 1 => startStep health_check_interval (runLoop health_check_interval cycles n)
      (cycles n)

/-- The fields of `TokenRotationService` that `__init__` (lines 33-49) sets. -/
structure ServiceState where
  brokers : List String
  health_check_interval : Nat
  broker_instances : List String
deriving Repr, DecidableEq

/-- Model of `TokenRotationService.__init__`: `health_check_interval` is a keyword
argument with default `5`; `interval? = none` models a construction that
omits it. -/
def mkTokenRotationService (brokers : List String) (interval? : Option Nat) :
    ServiceState :=
  { brokers := brokers
    health_check_interval := interval?.getD 5
    broker_instances := [] }

/-! ## Helper lemmas on the chunking functions -/

theorem chunksOfAux_flatten {α : Type} (B : Nat) (hB : 0 < B) :
    ∀ (fuel : Nat) (l : List α), l.length ≤ fuel →
      (chunksOfAux B fuel l).flatten = l := by
  intro fuel
  induction fuel with
  | zero =>
    intro l hl
    have hnil : l = [] := List.eq_nil_of_length_eq_zero (Nat.le_zero.mp hl)
    subst hnil
    rfl
  | succ n ih =>
    intro l hl
    cases l with
    | nil => rfl
    | cons x xs =>
      simp only [chunksOfAux, List.flatten]
      rw [ih ((x :: xs).drop B)
        (by simp only [List.length_drop, List.length_cons]
            simp only [List.length_cons] at hl
            omega)]
      exact List.take_append_drop B (x :: xs)

theorem chunksOfAux_size_le {α : Type} (B : Nat) :
    ∀ (fuel : Nat) (l : List α) (c : List α),
      c ∈ chunksOfAux B fuel l → c.length ≤ B := by
  intro fuel
  induction fuel with
  | zero =>
    intro l c hc
    cases l <;> simp [chunksOfAux] at hc
  | succ n ih =>
    intro l c hc
    cases l with
    | nil => simp [chunksOfAux] at hc
    | cons x xs =>
      simp only [chunksOfAux, List.mem_cons] at hc
      cases hc with
      | inl h => subst h; exact List.length_take_le B (x :: xs)
      | inr h => exact ih _ _ h

theorem ceil_div_succ (B n : Nat) (hB : 0 < B) (hn : 1 ≤ n) :
    (n + B - 1) / B = (n - 1) / B + 1 := by
  have h1 : n + B - 1 = (n - 1) + B := by omega
  rw [h1, Nat.add_div_right _ hB]

theorem chunksOfAux_count {α : Type} (B : Nat) (hB : 0 < B) :
    ∀ (fuel : Nat) (l : List α), l.length ≤ fuel →
      (chunksOfAux B fuel l).length = (l.length + B - 1) / B := by
  intro fuel
  induction fuel with
  | zero =>
    intro l hl
    have hnil : l = [] := List.eq_nil_of_length_eq_zero (Nat.le_zero.mp hl)
    subst hnil
    simp [chunksOfAux, Nat.div_eq_of_lt (by omega : B - 1 < B)]
  | succ n ih =>
    intro l hl
    cases l with
    | nil => simp [chunksOfAux, Nat.div_eq_of_lt (by omega : B - 1 < B)]
    | cons x xs =>
      simp only [chunksOfAux, List.length_cons]
      rw [ih ((x :: xs).drop B)
        (by simp only [List.length_drop, List.length_cons]
            simp only [List.length_cons] at hl
            omega)]
      rw [List.length_drop, List.length_cons]
      rw [ceil_div_succ B (xs.length + 1) hB (by omega)]
      by_cases hle : B ≤ xs.length + 1
      · have harg : xs.length + 1 - B + B - 1 = xs.length + 1 - 1 := by omega
        rw [harg]
      · have h0 : xs.length + 1 - B = 0 := by omega
        rw [h0]
        rw [Nat.div_eq_of_lt (by omega : xs.length + 1 - 1 < B),
            Nat.div_eq_of_lt (by omega : 0 + B - 1 < B)]

theorem regGet_upd (k k2 : String) (v : BrokerCls) :
    ∀ m : Registry,
      regGet (regUpd k v m) k2 = if k2 == k then some v else regGet m k2 := by
  intro m
  induction m with
  | nil =>
    simp only [regUpd, regGet]
    by_cases h : k2 = k
    · simp [h]
    · have h2 : ¬k = k2 := fun he => h he.symm
      simp [beq_iff_eq, h, h2]
  | cons hd rest ih =>
    obtain ⟨a, b⟩ := hd
    simp only [regUpd]
    by_cases hak : a = k
    · subst hak
      simp only [beq_self_eq_true, if_true, regGet]
      by_cases h : k2 = a
      · simp [beq_iff_eq, h]
      · have h2 : ¬a = k2 := fun he => h he.symm
        simp [beq_iff_eq, h, h2]
    · simp only [beq_iff_eq, hak, if_false, regGet]
      by_cases h2 : a = k2
      · have hne : ¬k2 = k := fun he => hak (h2.trans he)
        simp [beq_iff_eq, h2, hne]
      · simp [beq_iff_eq, h2, ih]

theorem regUpd_upd_same (k : String) (v1 v2 : BrokerCls) :
    ∀ m : Registry, regUpd k v2 (regUpd k v1 m) = regUpd k v2 m := by
  intro m
  induction m with
  | nil => simp [regUpd]
  | cons hd rest ih =>
    obtain ⟨a, b⟩ := hd
    by_cases hak : a = k
    · subst hak
      simp [regUpd]
    · simp [regUpd, hak, beq_iff_eq, ih]

theorem create_fold_isOk (t : String) :
    ∀ (ops : List (String × BrokerCls)) (reg : Registry),
      (create_broker (ops.foldl (fun r p => register_broker r p.1 p.2) reg) t).isOk
        = (ops.any (fun p => pyLower p.1 == pyLower t)
            || (create_broker reg t).isOk) := by
  intro ops
  induction ops with
  | nil => intro reg; simp
  | cons op rest ih =>
    intro reg
    rw [List.foldl_cons, ih, List.any_cons]
    have step : (create_broker (register_broker reg op.1 op.2) t).isOk
        = ((pyLower op.1 == pyLower t) || (create_broker reg t).isOk) := by
      by_cases h : pyLower t = pyLower op.1
      · have hb : (pyLower op.1 == pyLower t) = true := by simp [beq_iff_eq, h.symm]
        simp [create_broker, register_broker, regGet_upd, beq_iff_eq, h, hb,
          Except.isOk, Except.toBool]
      · have hb : (pyLower op.1 == pyLower t) = false := by
          simp only [beq_eq_false_iff_ne, ne_eq]
          exact fun he => h he.symm
        have hb2 : (pyLower t == pyLower op.1) = false := by
          simp only [beq_eq_false_iff_ne, ne_eq]
          exact h
        simp only [create_broker, register_broker, regGet_upd, hb, hb2,
          Bool.false_eq_true, if_false, Bool.false_or]
    rw [step]
    cases hA : rest.any (fun p => pyLower p.1 == pyLower t) <;>
      cases hB : pyLower op.1 == pyLower t <;>
      cases hC : (create_broker reg t).isOk <;> simp

theorem filter_eq_singleton_of_pairwise {α : Type} (p : α → Bool) :
    ∀ (l : List α) (x : α), x ∈ l → p x = true →
      l.Pairwise (fun a b => ¬(p a = true ∧ p b = true)) →
      l.filter p = [x] := by
  intro l
  induction l with
  | nil => intro x hx _ _; cases hx
  | cons a rest ih =>
    intro x hx hpx hpair
    obtain ⟨hhead, htail⟩ := List.pairwise_cons.mp hpair
    rcases List.mem_cons.mp hx with heq | hxr
    · subst heq
      rw [List.filter_cons_of_pos hpx]
      have hrest : rest.filter p = [] :=
        List.filter_eq_nil_iff.mpr (fun b hb hpb => hhead b hb ⟨hpx, hpb⟩)
      rw [hrest]
    · have hpa : ¬p a = true := fun hpa => hhead x hxr ⟨hpa, hpx⟩
      rw [List.filter_cons_of_neg hpa]
      exact ih x hxr hpx htail

/-! ## Claim theorems -/

/-- C6: for every non-empty key list and positive batch bound `B` (the
broker instantiates `B` at `LTP_CHUNK_SIZE = 750` for `ltp_quote` and
`OHLC_CHUNK_SIZE = FULL_QUOTE_CHUNK_SIZE = 450` for `ohlc_quote` and
`full_market_quote`), the slicing chunker yields exactly
`ceil(N / B) = (N + B - 1) / B` batches, each of size at most `B`, whose
in-order concatenation is the input list. -/
theorem chunksOf_batches_spec {α : Type} (B : Nat) (l : List α)
    (hB : 0 < B) (_hl : l ≠ []) :
    (chunksOf B l).length = (l.length + B - 1) / B ∧
    (∀ c ∈ chunksOf B l, c.length ≤ B) ∧
    (chunksOf B l).flatten = l :=
  ⟨chunksOfAux_count B hB l.length l (Nat.le_refl _),
   fun c hc => chunksOfAux_size_le B l.length l c hc,
   chunksOfAux_flatten B hB l.length l (Nat.le_refl _)⟩

/-- Witness for C6: 1600 keys with the `ltp_quote` bound 750 make exactly
`ceil(1600 / 750) = 3` batches that concatenate back to the input. -/
theorem chunksOf_batches_spec_witness :
    0 < LTP_CHUNK_SIZE ∧ (List.range 1600 ≠ []) ∧
    ((chunksOf LTP_CHUNK_SIZE (List.range 1600)).length
        = ((List.range 1600).length + LTP_CHUNK_SIZE - 1) / LTP_CHUNK_SIZE ∧
     (∀ c ∈ chunksOf LTP_CHUNK_SIZE (List.range 1600), c.length ≤ LTP_CHUNK_SIZE) ∧
     (chunksOf LTP_CHUNK_SIZE (List.range 1600)).flatten = List.range 1600) :=
  ⟨by decide, by simp [List.range_eq_nil],
   chunksOf_batches_spec LTP_CHUNK_SIZE (List.range 1600) (by decide)
     (by simp [List.range_eq_nil])⟩

/-- C5 (code behaviour at the failing inputs): the `while chunk_start < to_dt`
date chunker produces no chunk at all when `from_date = to_date` (a one-day
range is covered zero times, the call returns `[]` without any provider
request), and when `to_date - from_date` is a positive multiple of 1000 days
the final day is in no chunk (day 21089 below); a 999-day span is still
covered in full, so the loss is exactly the boundary slip of the loop
condition. -/
theorem dateChunks_misses_final_day :
    dateChunks 20089 20089 = [] ∧
    dateChunks 20089 21089 = [(20089, 21088)] ∧
    dateChunks 20089 21088 = [(20089, 21088)] := by
  refine ⟨by decide, by decide, by decide⟩

theorem dateChunksAux_end_le (toD : Nat) :
    ∀ (fuel start : Nat) (p : Nat × Nat),
      p ∈ dateChunksAux fuel start toD → p.2 ≤ toD := by
  intro fuel
  induction fuel with
  | zero => intro start p hp; simp [dateChunksAux] at hp
  | succ n ih =>
    intro start p hp
    simp only [dateChunksAux] at hp
    by_cases h : start < toD
    · rw [if_pos h] at hp
      rcases List.mem_cons.mp hp with heq | hmem
      · subst heq; exact Nat.min_le_right _ _
      · exact ih _ p hmem
    · rw [if_neg h] at hp
      exact absurd hp (List.not_mem_nil p)

theorem histChunkLoop_ok_of_no_today (today : Nat) :
    ∀ (l : List ((Nat × Nat) × HistChunkResp)) (acc : Option (List Candle)),
      (∀ pr ∈ l, pr.1.2 ≠ today) →
      ∃ res, histChunkLoop today l acc = .ok res := by
  intro l
  induction l with
  | nil => intro acc _; exact ⟨acc, rfl⟩
  | cons hd tl ih =>
    intro acc hno
    obtain ⟨⟨a, b⟩, r⟩ := hd
    have hb : b ≠ today := hno _ (List.mem_cons_self _ _)
    have htl : ∀ pr ∈ tl, pr.1.2 ≠ today :=
      fun pr hpr => hno pr (List.mem_cons_of_mem _ hpr)
    cases r with
    | ok cs =>
      have hbeq : (b == today) = false := by
        simp only [beq_eq_false_iff_ne, ne_eq]
        exact hb
      by_cases he : cs.isEmpty = true
      · have hconv : convertChunkDf today b cs = .ok [] := by
          simp [convertChunkDf, he]
        simp only [histChunkLoop, hconv]
        simpa using ih acc htl
      · have hconv : convertChunkDf today b cs = .ok (sortByDt cs) := by
          simp [convertChunkDf, he, hbeq]
        simp only [histChunkLoop, hconv]
        by_cases hse : (sortByDt cs).isEmpty = true
        · simp only [hse, if_true]
          exact ih acc htl
        · simp only [hse, if_false]
          cases acc with
          | none => exact ih _ htl
          | some a2 => exact ih _ htl
    | okNoData => simpa only [histChunkLoop] using ih acc htl
    | okUnsuccessful => simpa only [histChunkLoop] using ih acc htl
    | httpFail s => simpa only [histChunkLoop] using ih acc htl

/-- C1 counterexample: a three-chunk `historical_data` call whose middle
chunk fails with HTTP 500 does not abort; it returns the merged candles of
the first and third chunks. The range `[0, 2500]` splits into three chunks
and ends well before the current day 30000 (a past-dated range), the
catalog resolves the probe instrument, and the 500 is only logged. -/
theorem historical_http_500_partial_result :
    historical_data
      [{ instrument_key := "NSE_INDEX|Nifty 50", exchange_token := 26000,
         exchange := "NSE_INDEX", tradingsymbol := "NIFTY 50" }]
      "NSE" "26000" "INDEX" 0 2500 30000
      [.ok [{ day := 10, tick := 0, openP := 1, high := 1, low := 1, close := 1,
              volume := 1, oi := 0 }],
       .httpFail 500,
       .ok [{ day := 2100, tick := 0, openP := 2, high := 2, low := 2, close := 2,
              volume := 2, oi := 0 }]]
    = .ok
      [{ day := 10, tick := 0, openP := 1, high := 1, low := 1, close := 1,
         volume := 1, oi := 0 },
       { day := 2100, tick := 0, openP := 2, high := 2, low := 2, close := 2,
         volume := 2, oi := 0 }] := by
  decide

/-- C1 as amended: in `historical_data` a chunk whose provider request
returns a non-success HTTP status is logged and skipped, not aborted on —
the merged result is exactly the one obtained without that chunk, so
candles from the other chunks still appear in the returned partial
sequence. In particular, for a range ending before the current day (where
the current-day branch of `_convert_to_polars_df` cannot fire), a call
whose pre-network instrument resolution succeeds returns `.ok` whatever
the chunk responses are. -/
theorem historical_http_failure_skipped :
    (∀ (today : Nat) (pre post : List ((Nat × Nat) × HistChunkResp))
        (p : Nat × Nat) (s : Nat) (acc : Option (List Candle)),
      histChunkLoop today (pre ++ (p, HistChunkResp.httpFail s) :: post) acc
        = histChunkLoop today (pre ++ post) acc) ∧
    (∀ (cat : Catalog) (ex tok ty : String) (fromD toD today : Nat)
        (resps : List HistChunkResp),
      (histResolve cat ex tok ty).isOk = true → toD < today →
      ∃ cs, historical_data cat ex tok ty fromD toD today resps = .ok cs) := by
  constructor
  · intro today pre post p s acc
    induction pre generalizing acc with
    | nil => rfl
    | cons hd tl ih =>
      obtain ⟨⟨a, b⟩, r⟩ := hd
      cases r with
      | ok cs =>
        simp only [List.cons_append, histChunkLoop]
        cases hconv : convertChunkDf today b cs with
        | error e => simp only [hconv]
        | ok df =>
          simp only [hconv]
          by_cases hempty : df.isEmpty = true
          · simp only [hempty, if_true]
            exact ih acc
          · simp only [hempty, if_false]
            cases acc with
            | none => exact ih _
            | some a2 => exact ih _
      | okNoData => simpa only [List.cons_append, histChunkLoop] using ih acc
      | okUnsuccessful => simpa only [List.cons_append, histChunkLoop] using ih acc
      | httpFail s2 => simpa only [List.cons_append, histChunkLoop] using ih acc
  · intro cat ex tok ty fromD toD today resps h hlt
    unfold historical_data
    cases hres : histResolve cat ex tok ty with
    | error e => rw [hres] at h; simp [Except.isOk, Except.toBool] at h
    | ok key =>
      have hno : ∀ pr ∈ (dateChunks fromD toD).zip resps, pr.1.2 ≠ today := by
        intro pr hpr
        obtain ⟨pq, pr2⟩ := pr
        have hmem : pq ∈ dateChunks fromD toD := (List.of_mem_zip hpr).1
        have hle : pq.2 ≤ toD :=
          dateChunksAux_end_le toD (toD + 1 - fromD) fromD pq hmem
        simp only
        omega
      obtain ⟨res, hloop⟩ := histChunkLoop_ok_of_no_today today _ none hno
      rw [hloop]
      cases res with
      | none => exact ⟨[], rfl⟩
      | some combined =>
        by_cases hc : combined.isEmpty = true
        · exact ⟨[], by simp [hc]⟩
        · exact ⟨sortByDt combined, by simp [hc]⟩

/-- Witness for C1: the amended theorem applied to the concrete catalog,
instrument, past-dated range and responses of the counterexample run. -/
theorem historical_http_failure_skipped_witness :
    (histResolve
        [{ instrument_key := "NSE_INDEX|Nifty 50", exchange_token := 26000,
           exchange := "NSE_INDEX", tradingsymbol := "NIFTY 50" }]
        "NSE" "26000" "INDEX").isOk = true ∧
    2500 < 30000 ∧
    ∃ cs, historical_data
        [{ instrument_key := "NSE_INDEX|Nifty 50", exchange_token := 26000,
           exchange := "NSE_INDEX", tradingsymbol := "NIFTY 50" }]
        "NSE" "26000" "INDEX" 0 2500 30000 [.httpFail 500] = .ok cs :=
  ⟨by decide, by decide,
   historical_http_failure_skipped.2 _ "NSE" "26000" "INDEX" 0 2500 30000
     [.httpFail 500] (by decide) (by decide)⟩

/-- C2 counterexample: `initialize` assigns the token and the catalog in two
separate steps with no rollback, so when the token fetch succeeds and the
catalog fetch then fails, a reader observes the new `access_token` paired
with the old catalog — a state that is neither the complete pre-rotation
pair nor the complete post-rotation pair. -/
theorem initialize_partial_failure_mixed :
    initializeRun
      { access_token := some "oldTok",
        master_df := some [{ instrument_key := "K1", exchange_token := 1,
                             exchange := "NSE_EQ", tradingsymbol := "A" }] }
      (.ok "newTok") (.error "instrument feed unavailable")
    = ({ access_token := some "newTok",
         master_df := some [{ instrument_key := "K1", exchange_token := 1,
                              exchange := "NSE_EQ", tradingsymbol := "A" }] },
       .error "instrument feed unavailable") ∧
    (some "newTok" : Option String) ≠ some "oldTok" := by
  refine ⟨by decide, by decide⟩

/-- C2 as amended: the credential and the catalog are replaced in two
sequential assignments, not as one atomic unit. A failing token fetch leaves
the state untouched; a successful token fetch followed by a failing catalog
fetch leaves the new token with the old catalog; only a fully successful
`initialize` yields the complete post pair. -/
theorem initialize_state_characterization :
    (∀ (s : AdapterState) (e : String) (mres : Except String Catalog),
      initializeRun s (.error e) mres = (s, .error e)) ∧
    (∀ (s : AdapterState) (tok : String) (e : String),
      initializeRun s (.ok tok) (.error e)
        = ({ access_token := some tok, master_df := s.master_df }, .error e)) ∧
    (∀ (s : AdapterState) (tok : String) (m : Catalog),
      initializeRun s (.ok tok) (.ok m)
        = ({ access_token := some tok, master_df := some m }, .ok ())) :=
  ⟨fun _ _ _ => rfl, fun _ _ _ => rfl, fun _ _ _ => rfl⟩

/-- C3 (code behaviour at the failing input): when a provider quote entry
carries an `instrument_token` that is not in the catalog, `convert_quote`
subscripts row 0 of an empty filter result before reaching its dead
`is_empty` skip, so the whole conversion aborts with the raised error and no
map is returned — even though the other entry of the same response is
resolvable, as the second conjunct shows. -/
theorem convert_quote_unknown_key_aborts :
    convert_quote
      [{ instrument_key := "NSE_INDEX|Nifty 50", exchange_token := 26000,
         exchange := "NSE_INDEX", tradingsymbol := "NIFTY 50" }]
      [("NSE_INDEX|Nifty 50", { instrument_token := some "NSE_INDEX|Nifty 50",
                                payload := 7 }),
       ("NSE_EQ|MISSING", { instrument_token := some "NSE_EQ|MISSING",
                            payload := 9 })]
    = .error (.indexOutOfBounds "NSE_EQ|MISSING") ∧
    convert_quote
      [{ instrument_key := "NSE_INDEX|Nifty 50", exchange_token := 26000,
         exchange := "NSE_INDEX", tradingsymbol := "NIFTY 50" }]
      [("NSE_INDEX|Nifty 50", { instrument_token := some "NSE_INDEX|Nifty 50",
                                payload := 7 })]
    = .ok [(26000, { trading_symbol := "NIFTY 50", instrument_type := "INDEX",
                     payload := 7 })] := by
  refine ⟨by decide, by decide⟩

/-- C8 counterexample: a `TokenRotationService` constructed without an
explicit interval gets a health-check interval of 5 seconds, not 300
(the 300 in the deployment glue of `main.py` is passed explicitly). -/
theorem default_interval_not_300 :
    (mkTokenRotationService ["upstox"] none).health_check_interval = 5 ∧
    (5 : Nat) ≠ 300 := by
  refine ⟨by decide, by decide⟩

/-- C8 as amended: the constructor default for `health_check_interval` is 5
seconds, and an explicitly passed interval is stored unchanged. -/
theorem default_interval_is_five :
    (∀ bs : List String,
      (mkTokenRotationService bs none).health_check_interval = 5) ∧
    (∀ (bs : List String) (n : Nat),
      (mkTokenRotationService bs (some n)).health_check_interval = n) :=
  ⟨fun _ => rfl, fun _ _ => rfl⟩

/-- C7: the token-lifecycle loop never terminates on an error. Every broker
in a cycle is processed — the cycle produces one event per broker, each
event a function of that broker alone, and a prefix of failing brokers never
prevents the remaining probes (the append law) — and after any number of
cycle outcomes, exceptions included, the loop is still running with its
cycle count advanced; the only exit is process shutdown, which has no
representation in the loop state. -/
theorem token_loop_never_stops :
    (∀ behs : List BrokerBeh,
      check_all_tokens behs
        = behs.map (fun beh =>
            match checkBrokerBody beh with
            | .ok ev => ev
            | .error msg => .errorLogged msg)) ∧
    (∀ xs ys : List BrokerBeh,
      check_all_tokens (xs ++ ys) = check_all_tokens xs ++ check_all_tokens ys) ∧
    (∀ behs : List BrokerBeh, (check_all_tokens behs).length = behs.length) ∧
    (∀ (itv : Nat) (cycles : Nat → Except String (List CycleEvent)) (n : Nat),
      (runLoop itv cycles n).stopped = false ∧ (runLoop itv cycles n).cyclesDone = n) := by
  refine ⟨?_, ?_, ?_, ?_⟩
  · intro behs
    induction behs with
    | nil => rfl
    | cons beh rest ih => simp only [check_all_tokens, List.map_cons, ih]
  · intro xs ys
    induction xs with
    | nil => rfl
    | cons x xs ih => simp only [List.cons_append, check_all_tokens, List.append_eq, ih]
  · intro behs
    induction behs with
    | nil => rfl
    | cons beh rest ih => simp only [check_all_tokens, List.length_cons, ih]
  · intro itv cycles n
    induction n with
    | zero => exact ⟨rfl, rfl⟩
    | succ m ih =>
      obtain ⟨hs, hc⟩ := ih
      cases hcy : cycles m with
      | ok evs =>
        constructor
        · simp [runLoop, startStep, hcy]
        · simp [runLoop, startStep, hcy, hc]
      | error e =>
        constructor
        · simp [runLoop, startStep, hcy]
        · simp [runLoop, startStep, hcy, hc]

/-- C4 counterexample: with two catalog rows sharing the pair
(exchange_token 5, exchange "NSE_EQ") but carrying different instrument keys
and trading symbols, the second row resolves forward to the key of the
first row (filter takes row 0), whose reverse resolution returns the trading
symbol "AAA" of the first row — not the symbol "BBB" of the row resolved. -/
theorem resolve_roundtrip_cex :
    ({ instrument_key := "K2", exchange_token := 5, exchange := "NSE_EQ",
       tradingsymbol := "BBB" } : InstrumentRow) ∈
      ([{ instrument_key := "K1", exchange_token := 5, exchange := "NSE_EQ",
          tradingsymbol := "AAA" },
        { instrument_key := "K2", exchange_token := 5, exchange := "NSE_EQ",
          tradingsymbol := "BBB" }] : Catalog) ∧
    resolve
      [{ instrument_key := "K1", exchange_token := 5, exchange := "NSE_EQ",
         tradingsymbol := "AAA" },
       { instrument_key := "K2", exchange_token := 5, exchange := "NSE_EQ",
         tradingsymbol := "BBB" }] "NSE" "EQ" 5 = some "K1" ∧
    reverseResolve
      [{ instrument_key := "K1", exchange_token := 5, exchange := "NSE_EQ",
         tradingsymbol := "AAA" },
       { instrument_key := "K2", exchange_token := 5, exchange := "NSE_EQ",
         tradingsymbol := "BBB" }] "K1" = some (5, "AAA") ∧
    ("AAA" : String) ≠ "BBB" := by
  refine ⟨by decide, by decide, by decide, by decide⟩

/-- C4 as amended: the resolve/reverse-resolve roundtrip returns the
original (exchange_token, trading_symbol) pair for every catalog row,
provided the catalog has no two rows sharing the (exchange_token, exchange)
pair and no two rows sharing an instrument_key (both lookups subscript row 0
of their filter, so duplicates shadow later rows). -/
theorem resolve_roundtrip_unique (cat : Catalog) (row : InstrumentRow)
    (hmem : row ∈ cat)
    (hpair : cat.Pairwise (fun a b =>
      a.exchange_token ≠ b.exchange_token ∨ a.exchange ≠ b.exchange))
    (hkey : cat.Pairwise (fun a b => a.instrument_key ≠ b.instrument_key))
    (ex ty : String) (hex : ex ++ "_" ++ ty = row.exchange) :
    resolve cat ex ty row.exchange_token = some row.instrument_key ∧
    reverseResolve cat row.instrument_key
      = some (row.exchange_token, row.tradingsymbol) := by
  constructor
  · have h1 : masterFilter cat row.exchange_token (ex ++ "_" ++ ty) = [row] := by
      apply filter_eq_singleton_of_pairwise _ cat row hmem
      · simp [hex]
      · refine hpair.imp ?_
        intro a b hab hcon
        obtain ⟨hpa, hpb⟩ := hcon
        simp only [Bool.and_eq_true, beq_iff_eq] at hpa hpb
        rcases hab with h | h
        · exact h (hpa.1.trans hpb.1.symm)
        · exact h (hpa.2.trans hpb.2.symm)
    simp [resolve, h1]
  · have h2 : reverseRows cat row.instrument_key = [row] := by
      apply filter_eq_singleton_of_pairwise _ cat row hmem
      · simp
      · refine hkey.imp ?_
        intro a b hab hcon
        obtain ⟨hpa, hpb⟩ := hcon
        simp only [beq_iff_eq] at hpa hpb
        exact hab (hpa.trans hpb.symm)
    simp [reverseResolve, h2]

/-- Witness for C4: the roundtrip theorem applied to a one-row catalog. -/
theorem resolve_roundtrip_unique_witness :
    resolve
      [{ instrument_key := "NSE_EQ|INE002A01018", exchange_token := 2885,
         exchange := "NSE_EQ", tradingsymbol := "RELIANCE" }]
      "NSE" "EQ" 2885 = some "NSE_EQ|INE002A01018" ∧
    reverseResolve
      [{ instrument_key := "NSE_EQ|INE002A01018", exchange_token := 2885,
         exchange := "NSE_EQ", tradingsymbol := "RELIANCE" }]
      "NSE_EQ|INE002A01018" = some (2885, "RELIANCE") :=
  resolve_roundtrip_unique
    [{ instrument_key := "NSE_EQ|INE002A01018", exchange_token := 2885,
       exchange := "NSE_EQ", tradingsymbol := "RELIANCE" }]
    { instrument_key := "NSE_EQ|INE002A01018", exchange_token := 2885,
      exchange := "NSE_EQ", tradingsymbol := "RELIANCE" }
    (by simp) (by simp) (by simp) "NSE" "EQ" (by decide)

/-- C9: factory lookup is case-insensitive and total over registered types.
Starting from the empty registry, `create_broker` succeeds exactly when some
earlier `register_broker` call used a case variant of the requested type;
two registrations under case variants of one name collapse to a single
registry entry (the later class wins); requests differing only in case
behave identically; and a freshly registered type constructs via its
registered class. -/
theorem factory_case_insensitive :
    (∀ (ops : List (String × BrokerCls)) (t : String),
      (create_broker (ops.foldl (fun r p => register_broker r p.1 p.2) []) t).isOk
        = ops.any (fun p => pyLower p.1 == pyLower t)) ∧
    (∀ (reg : Registry) (t1 t2 : String) (c1 c2 : BrokerCls),
      pyLower t1 = pyLower t2 →
      register_broker (register_broker reg t1 c1) t2 c2 = register_broker reg t2 c2) ∧
    (∀ (reg : Registry) (t1 t2 : String), pyLower t1 = pyLower t2 →
      create_broker reg t1 = create_broker reg t2) ∧
    (∀ (reg : Registry) (t : String) (c : BrokerCls),
      create_broker (register_broker reg t c) t = .ok c) := by
  refine ⟨?_, ?_, ?_, ?_⟩
  · intro ops t
    rw [create_fold_isOk]
    simp [create_broker, regGet, Except.isOk, Except.toBool]
  · intro reg t1 t2 c1 c2 hlow
    simp only [register_broker, hlow]
    exact regUpd_upd_same (pyLower t2) c1 c2 reg
  · intro reg t1 t2 hlow
    simp only [create_broker, hlow]
  · intro reg t c
    simp [create_broker, register_broker, regGet_upd]

/-- Witness for C9: registering under "Upstox" and then "UPSTOX" equals the
single later registration, and a "uPsToX" request constructs the broker. -/
theorem factory_case_insensitive_witness :
    (pyLower "Upstox" = pyLower "UPSTOX" ∧
      register_broker (register_broker [] "Upstox" 1) "UPSTOX" 2
        = register_broker [] "UPSTOX" 2) ∧
    (pyLower "uPsToX" = pyLower "upstox" ∧
      create_broker [("upstox", 2)] "uPsToX" = create_broker [("upstox", 2)] "upstox") :=
  ⟨⟨by decide, factory_case_insensitive.2.1 [] "Upstox" "UPSTOX" 1 2 (by decide)⟩,
   ⟨by decide, factory_case_insensitive.2.2.1 [("upstox", 2)] "uPsToX" "upstox" (by decide)⟩⟩

/-- C10: every quote and historical operation casts the caller-supplied
`exchange_token` with `int(...)` before looking anything up. A ref whose
token the cast rejects makes `resolveRef` — and each of the four operations
with such a ref first — fail with the cast error for every catalog and every
response pattern (so no lookup or network call influences the outcome), and
two tokens differing only in leading zeros cast to the same integer and
hence resolve identically. -/
theorem cast_precedes_lookup :
    (∀ (cat : Catalog) (ref : QuoteRef), pyInt ref.exchange_token = none →
      resolveRef cat ref = .error (.castError ref.exchange_token)) ∧
    (∀ (cat : Catalog) (ref : QuoteRef) (rest : List QuoteRef)
        (resps : List QuoteChunkResp), pyInt ref.exchange_token = none →
      ltp_quote cat (ref :: rest) resps = .error (.castError ref.exchange_token)) ∧
    (∀ (cat : Catalog) (ref : QuoteRef) (rest : List QuoteRef)
        (resps : List QuoteChunkResp), pyInt ref.exchange_token = none →
      ohlc_quote cat (ref :: rest) "1d" resps = .error (.castError ref.exchange_token)) ∧
    (∀ (cat : Catalog) (ref : QuoteRef) (rest : List QuoteRef)
        (resps : List QuoteChunkResp), pyInt ref.exchange_token = none →
      full_market_quote cat (ref :: rest) resps
        = .error (.castError ref.exchange_token)) ∧
    (∀ (cat : Catalog) (ex tok ty : String) (fromD toD today : Nat)
        (resps : List HistChunkResp), pyInt tok = none →
      historical_data cat ex tok ty fromD toD today resps
        = .error (.castError tok)) ∧
    (pyInt "026000" = some 26000 ∧ pyInt "26000" = some 26000) ∧
    (∀ (cat : Catalog) (ex ty : String) (key : String),
      resolveRef cat { exchange_token := "026000", exchange := ex, instrument_type := ty }
          = .ok key ↔
        resolveRef cat { exchange_token := "26000", exchange := ex, instrument_type := ty }
          = .ok key) := by
  refine ⟨?_, ?_, ?_, ?_, ?_, ⟨by decide, by decide⟩, ?_⟩
  · intro cat ref h
    simp [resolveRef, h]
  · intro cat ref rest resps h
    simp [ltp_quote, resolveRefs, resolveRef, h]
  · intro cat ref rest resps h
    have hiv : ("1d" : String) ∈ VALID_OHLC_INTERVALS := by decide
    simp [ohlc_quote, hiv, resolveRefs, resolveRef, h]
  · intro cat ref rest resps h
    simp [full_market_quote, resolveRefs, resolveRef, h]
  · intro cat ex tok ty fromD toD today resps h
    simp [historical_data, histResolve, h]
  · intro cat ex ty key
    have h1 : pyInt "026000" = some 26000 := by decide
    have h2 : pyInt "26000" = some 26000 := by decide
    simp only [resolveRef, h1, h2]
    cases resolve cat ex ty 26000 <;> simp

/-- Witness for C10: a non-numeric token "26a" is rejected by the cast and
aborts `ltp_quote` with the cast error on the empty catalog, before any
lookup. -/
theorem cast_precedes_lookup_witness :
    pyInt "26a" = none ∧
    ltp_quote [] [{ exchange_token := "26a", exchange := "NSE",
                    instrument_type := "EQ" }] []
      = .error (.castError "26a") :=
  ⟨by decide,
   cast_precedes_lookup.2.1 []
     { exchange_token := "26a", exchange := "NSE", instrument_type := "EQ" } [] []
     (by decide)⟩

end DataEndpoints
